import Mathlib

/-!
Verification development for the pdf-rag repository.

The Python sources are shallowly embedded as Lean functions over `List Char`
(strings) and plain data structures.  Each definition is translated directly
from the corresponding Python function; external-library behaviour (PDF
loading, text splitting, embedding, the LLM call, the filesystem clock) is
taken as an explicit function parameter, never stubbed with a fixed value.
All characters are treated as in Python's ASCII behaviour, which covers every
literal appearing in the sources.
-/

/-- Convert a Lean string literal to the `List Char` representation used
throughout this development. -/
def lstr (s : String) : List Char := s.toList

/-- Python `str.strip()` / regex `\s` whitespace set (ASCII): space, tab,
newline, carriage return, vertical tab, form feed. -/
def isPySpace (c : Char) : Bool :=
  c == ' ' || c == '\t' || c == '\n' || c == '\r' || c == '\x0b' || c == '\x0c'

/-- Python regex `\w` word-character set (ASCII): letters, digits, underscore. -/
def isWordChar (c : Char) : Bool :=
  c.isAlpha || c.isDigit || c == '_'

/-- Python `str.strip()`: remove leading and trailing whitespace. -/
def pyStrip (l : List Char) : List Char :=
  ((l.dropWhile isPySpace).reverse.dropWhile isPySpace).reverse

/-- Python `str.lower()` (ASCII). -/
def pyLower (l : List Char) : List Char := l.map Char.toLower

/-- Python `text.split('\n')`: split into lines at newline characters,
keeping empty segments (`"".split('\n') == ['']`). -/
def splitLines : List Char → List (List Char)
  | [] => [[]]
  | c :: t =>
    let r := splitLines t
    if c = '\n' then [] :: r
    else
      match r with
      | [] => [[c]]
      | h :: rs => (c :: h) :: rs

/-- Python `line.split(':', 1)[1]`: everything after the first colon
(empty when there is no colon; the callers only use it on lines that start
with a colon-terminated field tag). -/
def afterColon (l : List Char) : List Char :=
  (l.dropWhile (· ≠ ':')).drop 1

/-- Python `line.split(':', 1)[1].strip().lower() == 'true'` for the two
boolean protocol fields. -/
def parseBoolField (l : List Char) : Bool :=
  pyLower (pyStrip (afterColon l)) = lstr "true"

/-- The result record of `extract_file_operation` (both variants):
`{'download_original', 'download_summary', 'filename', 'summary_content'}`.
`none` models Python `None`. -/
structure Operations where
  download_original : Bool
  download_summary : Bool
  filename : Option (List Char)
  summary_content : Option (List Char)
deriving DecidableEq, Repr

/-- The initial all-default operations dictionary. -/
def Operations.init : Operations :=
  { download_original := false, download_summary := false,
    filename := none, summary_content := none }

/-- The four field tags recognized by the parsers. -/
def dlOrigTag : List Char := lstr "DOWNLOAD_ORIGINAL:"

/-- Tag for the summary-download boolean field. -/
def dlSumTag : List Char := lstr "DOWNLOAD_SUMMARY:"

/-- Tag for the filename field. -/
def fileTag : List Char := lstr "FILENAME:"

/-- Tag for the summary-content field. -/
def sumTag : List Char := lstr "SUMMARY_CONTENT:"

/-- Tag marking the start of the answer text. -/
def ansTag : List Char := lstr "ANSWER:"

/-- A stripped line starts with one of the four recognized field tags. -/
def startsAnyField (s : List Char) : Bool :=
  dlOrigTag.isPrefixOf s || dlSumTag.isPrefixOf s ||
  fileTag.isPrefixOf s || sumTag.isPrefixOf s

/-- Mutable accumulator of `extract_file_operation` in `utils.py`: the three
scalar fields; the summary lines are carried separately. -/
structure OpsAcc where
  download_original : Bool
  download_summary : Bool
  filename : Option (List Char)
deriving DecidableEq, Repr

/-- Initial accumulator of the utils parser. -/
def OpsAcc.init : OpsAcc :=
  { download_original := false, download_summary := false, filename := none }

/-- `utils.py` epilogue: join the accumulated summary lines with newlines,
or leave the field `None` when no line was accumulated. -/
def finalizeOps (a : OpsAcc) (sls : List (List Char)) : Operations :=
  { download_original := a.download_original
    download_summary := a.download_summary
    filename := a.filename
    summary_content :=
      if sls = [] then none else some (List.intercalate [ '\n' ] sls) }

/-- The line loop of `extract_file_operation` in `utils.py`.
`inSummary` models `current_section == 'summary'`; `sls` is `summary_lines`.
The `ANSWER:` branch performs `break`, so it finalizes immediately and the
remaining lines are never examined. -/
def extractLoop (inSummary : Bool) (a : OpsAcc) (sls : List (List Char)) :
    List (List Char) → Operations
  | [] => finalizeOps a sls
  | l :: rest =>
    let s := pyStrip l
    if dlOrigTag.isPrefixOf s then
      extractLoop inSummary { a with download_original := parseBoolField s } sls rest
    else if dlSumTag.isPrefixOf s then
      extractLoop inSummary { a with download_summary := parseBoolField s } sls rest
    else if fileTag.isPrefixOf s then
      extractLoop inSummary { a with filename := some (pyStrip (afterColon s)) } sls rest
    else if sumTag.isPrefixOf s then
      let contentAfterColon := pyStrip (afterColon s)
      extractLoop true a
        (if contentAfterColon = [] then sls else sls ++ [contentAfterColon]) rest
    else if inSummary ∧ s ≠ [] ∧ ¬ ansTag.isPrefixOf s then
      extractLoop inSummary a (sls ++ [s]) rest
    else if ansTag.isPrefixOf s then
      finalizeOps a sls
    else
      extractLoop inSummary a sls rest

/-- `extract_file_operation` from `src/utils.py`. -/
def extract_file_operation (response_text : List Char) : Operations :=
  extractLoop false OpsAcc.init [] (splitLines response_text)

/-- `current_section` of the `app.py` parser: `None`, `'summary'` or
`'answer'` (the `app.py` loop has no `break`, so the `'answer'` state is
observable there). -/
inductive CurSec where
  | none
  | summary
  | answer
deriving DecidableEq, Repr

/-- The line loop of `extract_file_operation` in `src/app.py`.  Differences
from the `utils.py` variant: `summary_content` is a string mutated in place
(set to the text after the colon, possibly empty, and extended with
`' ' + line`), and there is no `break` on `ANSWER:`, so later lines are
still processed. -/
def extractLoopApp (sec : CurSec) (ops : Operations) :
    List (List Char) → Operations
  | [] => ops
  | l :: rest =>
    let s := pyStrip l
    if dlOrigTag.isPrefixOf s then
      extractLoopApp sec { ops with download_original := parseBoolField s } rest
    else if dlSumTag.isPrefixOf s then
      extractLoopApp sec { ops with download_summary := parseBoolField s } rest
    else if fileTag.isPrefixOf s then
      extractLoopApp sec { ops with filename := some (pyStrip (afterColon s)) } rest
    else if sumTag.isPrefixOf s then
      extractLoopApp CurSec.summary
        { ops with summary_content := some (pyStrip (afterColon s)) } rest
    else if sec = CurSec.summary ∧ s ≠ [] ∧ ¬ ansTag.isPrefixOf s then
      let extended := (ops.summary_content.getD []) ++ ' ' :: s
      extractLoopApp sec { ops with summary_content := some extended } rest
    else if ansTag.isPrefixOf s then
      extractLoopApp CurSec.answer ops rest
    else
      extractLoopApp sec ops rest

/-- `extract_file_operation` from `src/app.py` (the second, inline variant
of the response-protocol parser). -/
def extractFileOperationApp (response_text : List Char) : Operations :=
  extractLoopApp CurSec.none Operations.init (splitLines response_text)

/-- Count of words in Python `line.split()` (maximal nonspace runs),
threaded with a flag for whether the previous character was whitespace. -/
def wcAux (prevSpace : Bool) : List Char → Nat
  | [] => 0
  | c :: t =>
    if isPySpace c then wcAux true t
    else (if prevSpace then 1 else 0) + wcAux false t

/-- Python `len(line.split())`. -/
def pyWordCount (l : List Char) : Nat := wcAux true l

/-- Regex `^#+\s+` of `is_main_heading`: one or more hash marks followed by
whitespace (backtracking cannot help because whitespace never equals a hash
mark, so checking after the maximal hash run is equivalent). -/
def mainPat1 (l : List Char) : Bool :=
  l.head? = some '#' &&
    (match l.dropWhile (· = '#') with
     | c :: _ => isPySpace c
     | [] => false)

/-- Regex `^[A-Z][A-Z\s]{3,}:?\s*$` of `is_main_heading` (ALL-CAPS heading):
an uppercase letter, at least three characters drawn from uppercase letters
and whitespace, an optional colon, trailing whitespace, end of line. -/
def mainPat2 (l : List Char) : Bool :=
  match l with
  | [] => false
  | c :: rest =>
    c.isUpper &&
      (let r1 := (rest.reverse.dropWhile isPySpace).reverse
       let r2 := if r1.getLast? = some ':' then r1.dropLast else r1
       decide (r2.length ≥ 3) && r2.all fun d => d.isUpper || isPySpace d)

/-- Regex `^\d+\.\s+[A-Z]` of `is_main_heading` (numbered heading such as
a section number followed by a capitalized title). -/
def mainPat3 (l : List Char) : Bool :=
  let ds := l.takeWhile Char.isDigit
  ds ≠ [] &&
    (match l.drop ds.length with
     | '.' :: r =>
       let ws := r.takeWhile isPySpace
       ws ≠ [] &&
         (match r.drop ws.length with
          | c :: _ => c.isUpper
          | [] => false)
     | _ => false)

/-- Regex `^[A-Z][a-z\s]+:$` of `is_main_heading` (title case with colon). -/
def mainPat4 (l : List Char) : Bool :=
  match l with
  | [] => false
  | c :: rest =>
    c.isUpper && rest.getLast? = some ':' &&
      (let mid := rest.dropLast
       mid ≠ [] && mid.all fun d => d.isLower || isPySpace d)

/-- `is_main_heading` from `src/pdf_formatter.py`.  The final short-line
fallback accesses `line[0]`, which in Python raises on an empty line; the
formatter only calls this on non-blank stripped lines, and the model
returns `false` there. -/
def is_main_heading (line : List Char) : Bool :=
  mainPat1 line || mainPat2 line || mainPat3 line || mainPat4 line ||
    (decide (line.length < 50) && decide (pyWordCount line ≤ 6) &&
      (match line with
       | c :: _ => c.isUpper
       | [] => false))

/-- Regex `^#{2,}\s+` of `is_subheading`: two or more hash marks followed
by whitespace. -/
def subPat1 (l : List Char) : Bool :=
  match l with
  | '#' :: '#' :: r =>
    (match r.dropWhile (· = '#') with
     | c :: _ => isPySpace c
     | [] => false)
  | _ => false

/-- Regex `^\d+\.\d+\s+` of `is_subheading` (dotted numeric pattern). -/
def subPat2 (l : List Char) : Bool :=
  let d1 := l.takeWhile Char.isDigit
  d1 ≠ [] &&
    (match l.drop d1.length with
     | '.' :: r =>
       let d2 := r.takeWhile Char.isDigit
       d2 ≠ [] &&
         (match r.drop d2.length with
          | c :: _ => isPySpace c
          | [] => false)
     | _ => false)

/-- Regex `^[A-Z][a-z]+\s+[A-Z][a-z]+:$` of `is_subheading` (two title
words followed by a colon). -/
def subPat3 (l : List Char) : Bool :=
  match l with
  | [] => false
  | c :: rest =>
    c.isUpper &&
      (let w1 := rest.takeWhile Char.isLower
       w1 ≠ [] &&
         (let r1 := rest.drop w1.length
          let ws := r1.takeWhile isPySpace
          ws ≠ [] &&
            (match r1.drop ws.length with
             | [] => false
             | d :: r2 =>
               d.isUpper &&
                 (let w2 := r2.takeWhile Char.isLower
                  w2 ≠ [] && r2.drop w2.length = [':']))))

/-- `is_subheading` from `src/pdf_formatter.py`. -/
def is_subheading (line : List Char) : Bool :=
  subPat1 line || subPat2 line || subPat3 line

/-- Dash, dot or asterisk bullet marker test used by the first two bullet
regexes. -/
def isDashMarker (c : Char) : Bool := c = '-' || c = '•' || c = '*'

/-- Regexes `^[-•*]\s+` and (after optional leading whitespace)
`^\s*[-•*]\s+` share this core: marker character then whitespace. -/
def bulletCore (l : List Char) : Bool :=
  match l with
  | c :: d :: _ => isDashMarker c && isPySpace d
  | _ => false

/-- `is_bullet_point` from `src/pdf_formatter.py`: covers the four regexes
`^[-•*]\s+`, `^\s*[-•*]\s+`, `^○\s+` and `^►\s+`. -/
def is_bullet_point (line : List Char) : Bool :=
  bulletCore line || bulletCore (line.dropWhile isPySpace) ||
    (match line with
     | c :: d :: _ => (c = '○' || c = '►') && isPySpace d
     | _ => false)

/-- Regex `^\d+\.\s+` of `is_numbered_point`. -/
def numDotPat (l : List Char) : Bool :=
  let ds := l.takeWhile Char.isDigit
  ds ≠ [] &&
    (match l.drop ds.length with
     | '.' :: c :: _ => isPySpace c
     | _ => false)

/-- Regex `^\d+\)\s+` of `is_numbered_point`. -/
def numParenPat (l : List Char) : Bool :=
  let ds := l.takeWhile Char.isDigit
  ds ≠ [] &&
    (match l.drop ds.length with
     | ')' :: c :: _ => isPySpace c
     | _ => false)

/-- Regex `^\(\d+\)\s+` of `is_numbered_point`. -/
def parenNumPat (l : List Char) : Bool :=
  match l with
  | '(' :: r =>
    let ds := r.takeWhile Char.isDigit
    ds ≠ [] &&
      (match r.drop ds.length with
       | ')' :: c :: _ => isPySpace c
       | _ => false)
  | _ => false

/-- `is_numbered_point` from `src/pdf_formatter.py`. -/
def is_numbered_point (line : List Char) : Bool :=
  numDotPat line || numParenPat line || parenNumPat line

/-- `re.sub(r':$', '', line)` of `clean_heading_text`: drop one trailing
colon. -/
def stripTrailColon (l : List Char) : List Char :=
  if l.getLast? = some ':' then l.dropLast else l

/-- `re.sub(r'\s+', ' ', line)`: collapse every whitespace run to a single
space; the flag records whether we are inside a run. -/
def cwAux (inRun : Bool) : List Char → List Char
  | [] => []
  | c :: t =>
    if isPySpace c then
      (if inRun then cwAux true t else ' ' :: cwAux true t)
    else c :: cwAux false t

/-- Whitespace-run collapsing entry point. -/
def collapseWs (l : List Char) : List Char := cwAux false l

/-- `re.sub(r'^#+\s*', '', line)`: remove a leading hash run together with
the whitespace that follows it (no-op when the line has no leading hash). -/
def dropLeadingHashes (l : List Char) : List Char :=
  if l.head? = some '#' then (l.dropWhile (· = '#')).dropWhile isPySpace else l

/-- `clean_heading_text` from `src/pdf_formatter.py`. -/
def clean_heading_text (line : List Char) : List Char :=
  pyStrip (collapseWs (stripTrailColon (dropLeadingHashes line)))

/-- Bullet-marker set of `clean_bullet_text` (`[-•*○►]`). -/
def isAnyBulletMarker (c : Char) : Bool :=
  c = '-' || c = '•' || c = '*' || c = '○' || c = '►'

/-- `re.sub(r'^[-•*○►]\s*', '', line)` of `clean_bullet_text`. -/
def stripBulletA (l : List Char) : List Char :=
  match l with
  | c :: r => if isAnyBulletMarker c then r.dropWhile isPySpace else l
  | [] => l

/-- `re.sub(r'^\s*[-•*○►]\s*', '', line)` of `clean_bullet_text`. -/
def stripBulletB (l : List Char) : List Char :=
  let w := l.takeWhile isPySpace
  match l.drop w.length with
  | c :: r => if isAnyBulletMarker c then r.dropWhile isPySpace else l
  | [] => l

/-- `clean_bullet_text` from `src/pdf_formatter.py` (both substitutions
applied in order, then stripped). -/
def clean_bullet_text (line : List Char) : List Char :=
  pyStrip (stripBulletB (stripBulletA line))

/-- `re.sub(r'^\d+\.\s*', '', line)` of `clean_numbered_text`. -/
def stripNumDot (l : List Char) : List Char :=
  let ds := l.takeWhile Char.isDigit
  if ds ≠ [] then
    match l.drop ds.length with
    | '.' :: r => r.dropWhile isPySpace
    | _ => l
  else l

/-- `re.sub(r'^\d+\)\s*', '', line)` of `clean_numbered_text`. -/
def stripNumParen (l : List Char) : List Char :=
  let ds := l.takeWhile Char.isDigit
  if ds ≠ [] then
    match l.drop ds.length with
    | ')' :: r => r.dropWhile isPySpace
    | _ => l
  else l

/-- `re.sub(r'^\(\d+\)\s*', '', line)` of `clean_numbered_text`. -/
def stripParenNum (l : List Char) : List Char :=
  match l with
  | '(' :: r =>
    let ds := r.takeWhile Char.isDigit
    if ds ≠ [] then
      match r.drop ds.length with
      | ')' :: r2 => r2.dropWhile isPySpace
      | _ => l
    else l
  | _ => l

/-- `clean_numbered_text` from `src/pdf_formatter.py` (three substitutions
applied in order, then stripped). -/
def clean_numbered_text (line : List Char) : List Char :=
  pyStrip (stripParenNum (stripNumParen (stripNumDot line)))

/-- Lazy-middle matcher for a Python regex of shape `open(.*?)close` with a
trailing lookahead: finds the shortest middle (of non-newline characters,
as Python `.` does not match a newline) such that `cl` follows and the
lookahead `la` accepts the character after it; returns the middle and the
remaining text after the close delimiter. -/
def matchMid (cl : List Char) (la : Option Char → Bool) :
    List Char → Option (List Char × List Char)
  | [] =>
    if cl.isPrefixOf ([] : List Char) && la Option.none then some ([], [])
    else none
  | c :: t =>
    if cl.isPrefixOf (c :: t) && la ((c :: t).drop cl.length).head? then
      some ([], (c :: t).drop cl.length)
    else if c = '\n' then none
    else (matchMid cl la t).map fun p => (c :: p.1, p.2)

/-- One pass of Python `re.sub` for a pattern
`(?<lookbehind)open(.*?)close(?=lookahead)` with replacement
`rl\1rr`: scan left to right, replace each leftmost non-overlapping match,
and continue after it.  `prev` is the character of the original string
immediately before the current position (for the lookbehind); the fuel is
at least the number of remaining characters, and every step consumes at
least one character, so fuel `s.length` suffices. -/
def subLazyAux (lb la : Option Char → Bool) (op cl rl rr : List Char) :
    Nat → Option Char → List Char → List Char
  | 0, _, s => s
  | _ + 1, _, [] => []
  | fuel + 1, prev, c :: t =>
    match
      (if lb prev && op.isPrefixOf (c :: t) then
        matchMid cl la ((c :: t).drop op.length)
      else none) with
    | some (mid, rest) =>
      rl ++ mid ++ rr ++ subLazyAux lb la op cl rl rr fuel cl.getLast? rest
    | none => c :: subLazyAux lb la op cl rl rr fuel (some c) t

/-- Python `re.sub` entry point for the lazy-middle patterns of
`format_inline_text`. -/
def pySubLazy (lb la : Option Char → Bool) (op cl rl rr s : List Char) :
    List Char :=
  subLazyAux lb la op cl rl rr s.length none s

/-- Trivial look-around (the first three substitutions have none). -/
def anyCtx : Option Char → Bool := fun _ => true

/-- Look-around `(?<![\w])` / `(?![\w])`: the neighbouring character, when
present, is not a word character. -/
def noWordCtx : Option Char → Bool
  | some c => ¬ isWordChar c
  | none => true

/-- `format_inline_text` from `src/pdf_formatter.py`: the four `re.sub`
calls in source order (double-asterisk bold, asterisk italic,
double-underscore bold, and word-boundary-guarded underscore italic). -/
def format_inline_text (text : List Char) : List Char :=
  let t1 := pySubLazy anyCtx anyCtx (lstr "**") (lstr "**")
    (lstr "<b>") (lstr "</b>") text
  let t2 := pySubLazy anyCtx anyCtx (lstr "*") (lstr "*")
    (lstr "<i>") (lstr "</i>") t1
  let t3 := pySubLazy anyCtx anyCtx (lstr "__") (lstr "__")
    (lstr "<b>") (lstr "</b>") t2
  pySubLazy noWordCtx noWordCtx (lstr "_") (lstr "_")
    (lstr "<i>") (lstr "</i>") t3

/-- Checker for the word-internal-underscore condition: every underscore
occurrence in the text is immediately preceded and followed by a word
character other than an underscore (as inside a filename such as
`my_file_name.pdf`); `prev` is the character before the current position.
-/
def uInternal : Option Char → List Char → Bool
  | _, [] => true
  | prev, c :: t =>
    (if c = '_' then
      (match prev with
       | some p => isWordChar p && !(p == '_')
       | Option.none => false) &&
      (match t.head? with
       | some n => isWordChar n && !(n == '_')
       | Option.none => false)
     else true) && uInternal (some c) t

/-- A rendered story element of `format_content_for_pdf`; the constructor
records which paragraph style the source line was rendered with, and the
`numbered` constructor keeps the rendered counter value separately from the
cleaned text. -/
inductive Elem where
  | spacer
  | mainHead (text : List Char)
  | subHead (text : List Char)
  | bullet (text : List Char)
  | numbered (n : Nat) (text : List Char)
  | para (text : List Char)
deriving DecidableEq, Repr

/-- `current_list_type` values of `format_content_for_pdf` (`None` is
modelled by `Option.none`). -/
inductive LType where
  | bullet
  | numbered
deriving DecidableEq, Repr

/-- Classification outcome of one stripped line, in the branch order of the
`format_content_for_pdf` loop: blank, then `is_main_heading`, then
`is_subheading`, then `is_bullet_point`, then `is_numbered_point`, then
regular paragraph; the first satisfied test wins. -/
inductive LineKind where
  | blank
  | mainHead
  | subHead
  | bullet
  | numbered
  | para
deriving DecidableEq, Repr

/-- The elif chain of `format_content_for_pdf` as a classifier. -/
def classifyLine (line : List Char) : LineKind :=
  if line = [] then LineKind.blank
  else if is_main_heading line then LineKind.mainHead
  else if is_subheading line then LineKind.subHead
  else if is_bullet_point line then LineKind.bullet
  else if is_numbered_point line then LineKind.numbered
  else LineKind.para

/-- One iteration of the `format_content_for_pdf` loop: takes the story so
far, `current_list_type`, `list_counter` and the raw line, and returns the
new story and loop state.  A blank line appends a spacer only when the
story is non-empty and does not already end in one, and leaves the list
state untouched (the Python `continue`). -/
def lineStep (story : List Elem) (clt : Option LType) (cnt : Nat)
    (rawLine : List Char) : List Elem × Option LType × Nat :=
  let line := pyStrip rawLine
  match classifyLine line with
  | LineKind.blank =>
    (match story.getLast? with
     | Option.none => (story, clt, cnt)
     | some e => if e = Elem.spacer then (story, clt, cnt)
       else (story ++ [Elem.spacer], clt, cnt))
  | LineKind.mainHead =>
    (story ++ [Elem.mainHead (clean_heading_text line)], Option.none, 0)
  | LineKind.subHead =>
    (story ++ [Elem.subHead (clean_heading_text line)], Option.none, 0)
  | LineKind.bullet =>
    (story ++ [Elem.bullet (clean_bullet_text line)], some LType.bullet, cnt)
  | LineKind.numbered =>
    let k := if clt = some LType.numbered then cnt else 0
    (story ++ [Elem.numbered (k + 1) (clean_numbered_text line)],
      some LType.numbered, k + 1)
  | LineKind.para =>
    (story ++ [Elem.para (format_inline_text line)], Option.none, 0)

/-- The line loop of `format_content_for_pdf`. -/
def formatLoop (story : List Elem) (clt : Option LType) (cnt : Nat) :
    List (List Char) → List Elem
  | [] => story
  | l :: rest =>
    let st := lineStep story clt cnt l
    formatLoop st.1 st.2.1 st.2.2 rest

/-- `format_content_for_pdf` from `src/pdf_formatter.py` (the story list of
styled elements built from the summary content). -/
def format_content_for_pdf (content : List Char) : List Elem :=
  formatLoop [] Option.none 0 (splitLines content)

namespace Config

/-- `Config.CHUNK_SIZE` from `src/config.py`. -/
def CHUNK_SIZE : Nat := 1000

/-- `Config.CHUNK_OVERLAP` from `src/config.py`. -/
def CHUNK_OVERLAP : Nat := 200

/-- `Config.MAX_MEMORY_SIZE` from `src/config.py`. -/
def MAX_MEMORY_SIZE : Nat := 20

end Config

/-- One conversation turn as stored by `MemoryManager.add_to_memory`:
the dict `{'user': ..., 'ai': ..., 'timestamp': str(os.times())}`.  The
timestamp string is produced by an impure clock call, so it enters the
model as data. -/
structure Turn where
  user : List Char
  ai : List Char
  timestamp : List Char
deriving DecidableEq, Repr

/-- The `chat_memory` dict: an association list from session id to the
session's deque of turns (Python dicts keep insertion order; no claim here
depends on the order of sessions, only on lookups). -/
abbrev MemMap : Type := List (List Char × List Turn)

/-- Dict lookup `chat_memory.get(session_id)`. -/
def memLookup (m : MemMap) (sid : List Char) : Option (List Turn) :=
  match m with
  | [] => Option.none
  | (k, v) :: t => if k = sid then some v else memLookup t sid

/-- Dict store `chat_memory[session_id] = v` (update in place, or append a
new key). -/
def memStore (m : MemMap) (sid : List Char) (v : List Turn) : MemMap :=
  match m with
  | [] => [(sid, v)]
  | (k, w) :: t => if k = sid then (k, v) :: t else (k, w) :: memStore t sid v

/-- The empty `chat_memory` dict. -/
def memEmpty : MemMap := []

/-- `collections.deque(maxlen=n).append`: when the deque is full the
leftmost (oldest) element is silently discarded. -/
def dequeAppend (maxlen : Nat) (xs : List Turn) (x : Turn) : List Turn :=
  if xs.length < maxlen then xs ++ [x]
  else (xs.drop (xs.length - maxlen + 1)) ++ [x]

/-- `MemoryManager.add_to_memory` from `src/memory_manager.py`: create the
session's deque on first use, then append the new turn (the deque enforces
the capacity bound). -/
def add_to_memory (m : MemMap) (sid user ai ts : List Char) : MemMap :=
  let cur := (memLookup m sid).getD []
  memStore m sid (dequeAppend Config.MAX_MEMORY_SIZE cur
    { user := user, ai := ai, timestamp := ts })

/-- `MemoryManager.get_conversation_context` from `src/memory_manager.py`:
empty string for an unknown session, otherwise a fixed header followed by
one `User:`/`AI:` line pair per retained turn, oldest first. -/
def get_conversation_context (m : MemMap) (sid : List Char) : List Char :=
  match memLookup m sid with
  | Option.none => []
  | some entries =>
    lstr "PREVIOUS CONVERSATION:\n" ++
      (entries.map fun e =>
        lstr "User: " ++ e.user ++ [ '\n' ] ++
        lstr "AI: " ++ e.ai ++ lstr "\n\n").flatten

/-- `MemoryManager.clear_memory` from `src/memory_manager.py`. -/
def clear_memory (m : MemMap) (sid : List Char) : MemMap :=
  match m with
  | [] => []
  | (k, v) :: t => if k = sid then t else (k, v) :: clear_memory t sid

/-- Build a memory map by appending a list of turns to one session,
starting from the empty map (the append-only behaviour the claims
quantify over). -/
def buildMem (sid : List Char) (items : List Turn) : MemMap :=
  items.foldl (fun m t => add_to_memory m sid t.user t.ai t.timestamp) memEmpty

/-- The turns currently retained for a session (empty when the session is
unknown). -/
def memTurns (m : MemMap) (sid : List Char) : List Turn :=
  (memLookup m sid).getD []

/-- A document unit as returned by the PDF loader: extracted text plus a
metadata dict (the loader itself is an external library and enters the
model as a function parameter). -/
structure Doc where
  content : List Char
  meta : List (List Char × List Char)
deriving DecidableEq, Repr

/-- Metadata dict assignment `doc.metadata[k] = v`. -/
def metaStore (m : List (List Char × List Char)) (k v : List Char) :
    List (List Char × List Char) :=
  match m with
  | [] => [(k, v)]
  | (k0, v0) :: t => if k0 = k then (k0, v) :: t else (k0, v0) :: metaStore t k v

/-- One entry of `get_available_files()`: filename and storage path of an
uploaded PDF (the byte size plays no role in the indexer). -/
structure FileInfo where
  filename : List Char
  path : List Char
deriving DecidableEq, Repr

/-- The metadata tagging inside the loading loop of `get_vectorstore`:
`doc.metadata['source_filename'] = filename; doc.metadata['file_path'] =
file_path`. -/
def tagDoc (fi : FileInfo) (d : Doc) : Doc :=
  let m1 := metaStore d.meta (lstr "source_filename") fi.filename
  { d with meta := metaStore m1 (lstr "file_path") fi.path }

/-- The document-loading loop of `get_vectorstore`: for each file run the
loader, tag every returned unit, and extend the accumulated list.  The
loader call `loader.load()` is not guarded by any exception handler in the
source, so a loader error aborts the whole loop and propagates. -/
def loadAll {E : Type} (load : FileInfo → Except E (List Doc)) :
    List FileInfo → Except E (List Doc)
  | [] => Except.ok []
  | fi :: rest => do
    let docs ← load fi
    let more ← loadAll load rest
    Except.ok (docs.map (tagDoc fi) ++ more)

/-- The vector store is modelled by the chunk collection it indexes
(`Chroma.from_documents(documents=docs, ...)`); the embedding model is
external and does not affect any claim. -/
abbrev VectorStore : Type := List Doc

/-- The mutable fields of `RAGHandler` that the claims touch:
`self.vectorstore` and `self.rag_chain` (the chain is represented by the
store its retriever was built from). -/
structure RAGState where
  vectorstore : Option VectorStore
  rag_chain : Option VectorStore
deriving DecidableEq, Repr

/-- `RAGHandler.__init__`. -/
def RAGState.init : RAGState := { vectorstore := Option.none, rag_chain := Option.none }

/-- `RAGHandler.reset_vectorstore`. -/
def RAGState.reset_vectorstore (_ : RAGState) : RAGState := RAGState.init

/-- `RAGHandler.get_vectorstore` from `src/rag_handler.py`: return the
cached store if present; otherwise return `None` for an empty upload
folder, load and tag all documents (propagating loader errors), return
`None` again when no content was extracted, and otherwise split into
chunks (the splitter is the external `RecursiveCharacterTextSplitter`,
taken as a parameter) and build and cache the store. -/
def RAGState.get_vectorstore {E : Type} (st : RAGState)
    (pdf_files : List FileInfo) (load : FileInfo → Except E (List Doc))
    (split : List Doc → List Doc) : Except E (RAGState × Option VectorStore) :=
  match st.vectorstore with
  | some vs => Except.ok (st, some vs)
  | Option.none =>
    if pdf_files = [] then Except.ok (st, Option.none)
    else do
      let documents ← loadAll load pdf_files
      if documents = [] then Except.ok (st, Option.none)
      else
        let docs := split documents
        Except.ok ({ st with vectorstore := some docs }, some docs)

/-- `RAGHandler.create_rag_chain`: cached when present, otherwise built
from the current vector store (the prompt text and LLM handle do not enter
the model; the chain is represented by its retriever's store).  The source
only calls this after a successful `get_vectorstore`. -/
def RAGState.create_rag_chain (st : RAGState) : RAGState :=
  if st.rag_chain.isSome then st else { st with rag_chain := st.vectorstore }

/-- `RAGHandler.initialize` from `src/rag_handler.py`: build the store,
report `false` when it is `None`, otherwise build the chain and report
`true`. -/
def RAGState.initializeHandler {E : Type} (st : RAGState) (pdf_files : List FileInfo)
    (load : FileInfo → Except E (List Doc)) (split : List Doc → List Doc) :
    Except E (RAGState × Bool) := do
  let r ← st.get_vectorstore pdf_files load split
  match r.2 with
  | Option.none => Except.ok (r.1, false)
  | some _ => Except.ok (r.1.create_rag_chain, true)

/-- Generic single-character split (Python `s.split(sep)` keeping empty
segments). -/
def splitOnCh (sep : Char) : List Char → List (List Char)
  | [] => [[]]
  | c :: t =>
    let r := splitOnCh sep t
    if c = sep then [] :: r
    else
      match r with
      | [] => [[c]]
      | h :: rs => (c :: h) :: rs

/-- Python `path.split('/')[-1]` (also `os.path.basename` for the paths
built here, which contain no trailing slash). -/
def lastSeg (l : List Char) : List Char :=
  ((splitOnCh '/' l).getLast?).getD []

/-- The `download_links` dict built by the `/ask` handler: an optional URL
per key; the dict is truthy when at least one key is present. -/
structure Links where
  original : Option (List Char)
  summary : Option (List Char)
deriving DecidableEq, Repr

/-- `format_response_with_links` from `src/utils.py` and `src/app.py`
(identical in both): append a download section when any link exists. -/
def format_response_with_links (clean_answer : List Char) (dl : Links) :
    List Char :=
  if dl.original = Option.none ∧ dl.summary = Option.none then clean_answer
  else
    clean_answer ++ lstr "\n\n📎 **Download Links:**\n" ++
      (match dl.original with
       | some url =>
         lstr "• [📄 Download Original PDF: " ++ lastSeg url ++
           lstr "](" ++ url ++ lstr ")\n"
       | Option.none => []) ++
      (match dl.summary with
       | some url =>
         lstr "• [📋 Download Summary PDF: " ++ lastSeg url ++
           lstr "](" ++ url ++ lstr ")\n"
       | Option.none => [])

/-- First-occurrence substring split, Python `s.split(pat, 1)`: `some
(before, after)` around the first occurrence, `none` when absent. -/
def findSub (pat : List Char) : List Char → Option (List Char × List Char)
  | [] => if pat.isPrefixOf ([] : List Char) then some ([], []) else Option.none
  | c :: t =>
    if pat.isPrefixOf (c :: t) then some ([], (c :: t).drop pat.length)
    else (findSub pat t).map fun p => (c :: p.1, p.2)

/-- Result of the `/ask` handler: either one of the early/error JSON
replies carrying only a response string, or the full success payload. -/
inductive AskOutcome where
  | simpleResponse (response : List Char) (memory : MemMap)
  | fullResponse (response : List Char) (links : Links) (ops : Operations)
      (session_id : List Char) (memory : MemMap)
deriving DecidableEq, Repr

/-- `ask_question` from `src/app.py`.  External effects enter as data:
`vs` is the vector store after the lazy ensure step, `chainResult` the
outcome of `rag_chain.invoke` (`Except.error` = raised exception, `some` =
the reply dict's answer entry, `none` = missing entry so the fallback
string is used), `fileExists` the filesystem probe used for the original
download link, `summaryOk` whether `create_pdf_summary` succeeded (its
failure is caught separately and only suppresses the summary link), and
`ts` the clock string stored with the memory turn.  The chain construction
before the `try` block has no observable effect beyond producing
`chainResult`. -/
def ask_question {E : Type} (question sid : List Char) (mem : MemMap)
    (vs : Option VectorStore) (chainResult : Except E (Option (List Char)))
    (fileExists : List Char → Bool) (summaryOk : Bool) (ts : List Char) :
    AskOutcome :=
  if question = [] then
    AskOutcome.simpleResponse (lstr "Please enter a question.") mem
  else
    match vs with
    | Option.none =>
      AskOutcome.simpleResponse
        (lstr "Please upload and process at least one PDF file first.") mem
    | some _ =>
      match chainResult with
      | Except.error _ =>
        let errorResponse := lstr "Sorry, an error occurred while processing your request."
        AskOutcome.simpleResponse errorResponse
          (add_to_memory mem sid question errorResponse ts)
      | Except.ok respDict =>
        let aiResponse := respDict.getD
          (lstr "Sorry, I could not find a relevant answer in your documents.")
        let operations := extractFileOperationApp aiResponse
        let cleanAnswer :=
          match findSub ansTag aiResponse with
          | some p => pyStrip p.2
          | Option.none => aiResponse
        let origLink : Option (List Char) :=
          match operations.download_original, operations.filename with
          | true, some fn =>
            if fn ≠ [] ∧ fileExists (lstr "uploads/" ++ fn) then
              some (lstr "/download/" ++ fn)
            else Option.none
          | _, _ => Option.none
        let sumLink : Option (List Char) :=
          if operations.download_summary then
            match operations.filename, operations.summary_content with
            | some fn, some sc =>
              if fn ≠ [] ∧ sc ≠ [] ∧ summaryOk then
                some (lstr "/download-summary/" ++
                  lastSeg (lstr "downloads/" ++ lstr "summary_" ++ fn))
              else Option.none
            | _, _ => Option.none
          else Option.none
        let links : Links := { original := origLink, summary := sumLink }
        let formatted := format_response_with_links cleanAnswer links
        AskOutcome.fullResponse formatted links operations sid
          (add_to_memory mem sid question cleanAnswer ts)

/-- Concrete reply used to test the utils parser's summary accumulation:
after `SUMMARY_CONTENT:` it contains a blank line, a recognized field line,
a plain line, the `ANSWER:` marker and a trailing field line. -/
def c1_input : List Char :=
  lstr "SUMMARY_CONTENT: a\n\nDOWNLOAD_ORIGINAL: true\nb\nANSWER: x\nFILENAME: z"

/-- Concrete reply on which the two parser implementations disagree
(two-line summary content). -/
def c10_input : List Char := lstr "SUMMARY_CONTENT: a\nb"

/-- Twenty-five distinct turns (users tagged with consecutive letters)
appended to a single session in order. -/
def c4items : List Turn :=
  (List.range 25).map fun i =>
    { user := [Char.ofNat (65 + i)], ai := [], timestamp := [] }

/-- An upload whose loader call raises. -/
def c5_badFile : FileInfo :=
  { filename := lstr "bad.pdf", path := lstr "uploads/bad.pdf" }

/-- An upload whose loader call succeeds with one page of text. -/
def c5_goodFile : FileInfo :=
  { filename := lstr "good.pdf", path := lstr "uploads/good.pdf" }

/-- A loader that raises on the bad upload and succeeds on everything
else. -/
def c5_load : FileInfo → Except Unit (List Doc) := fun f =>
  if f = c5_badFile then Except.error ()
  else Except.ok [{ content := lstr "text", meta := [] }]

deriving instance DecidableEq for Except

/-- A loader that succeeds on every file with one page of text (used to
instantiate the ensure-ready characterization). -/
def c3_load : FileInfo → Except Unit (List Doc) := fun _ =>
  Except.ok [{ content := lstr "text", meta := [] }]

/-- Helper: a prefix relation transports the head character. -/
theorem prefix_head_eq {p s : List Char} {c : Char}
    (h : p.isPrefixOf s = true) (hc : p.head? = some c) : s.head? = some c := by
  cases p with
  | nil => simp at hc
  | cons a t =>
    cases s with
    | nil => simp [List.isPrefixOf] at h
    | cons b u =>
      simp only [List.isPrefixOf, Bool.and_eq_true, beq_iff_eq] at h
      simp only [List.head?_cons, Option.some_inj] at hc ⊢
      rw [← h.1, hc]

/-- Helper: a nonempty pattern whose head differs from the head of the
text is not a prefix of it. -/
theorem tagNotPrefixOf {p s : List Char} {a b : Char}
    (hp : p.head? = some a) (hs : s.head? = some b) (hab : a ≠ b) :
    p.isPrefixOf s = false := by
  cases hq : p.isPrefixOf s
  · rfl
  · have := prefix_head_eq hq hp
    rw [hs] at this
    exact absurd (Option.some_inj.mp this).symm hab

/-- Helper: a line beginning the answer marker starts with no field tag
(the tags begin with distinct letters). -/
theorem noField_of_ans {s : List Char} (h : ansTag.isPrefixOf s = true) :
    startsAnyField s = false := by
  have hA : s.head? = some 'A' := prefix_head_eq h (by decide)
  have h1 : dlOrigTag.isPrefixOf s = false :=
    @tagNotPrefixOf dlOrigTag s 'D' 'A' (by decide) hA (by decide)
  have h2 : dlSumTag.isPrefixOf s = false :=
    @tagNotPrefixOf dlSumTag s 'D' 'A' (by decide) hA (by decide)
  have h3 : fileTag.isPrefixOf s = false :=
    @tagNotPrefixOf fileTag s 'F' 'A' (by decide) hA (by decide)
  have h4 : sumTag.isPrefixOf s = false :=
    @tagNotPrefixOf sumTag s 'S' 'A' (by decide) hA (by decide)
  simp [startsAnyField, h1, h2, h3, h4]

/-- Helper: with no recognized field tag on any line, the utils parser
loop never changes its accumulator or summary buffer and finalizes the
carried state (an answer line merely stops the loop with the same
result). -/
theorem extractLoop_noField (lines : List (List Char))
    (h : ∀ l ∈ lines, startsAnyField (pyStrip l) = false) :
    ∀ (a : OpsAcc) (sls : List (List Char)),
      extractLoop false a sls lines = finalizeOps a sls := by
  induction lines with
  | nil => intro a sls; rfl
  | cons l rest ih =>
    intro a sls
    have hl := h l (List.mem_cons_self _ _)
    have hr : ∀ x ∈ rest, startsAnyField (pyStrip x) = false :=
      fun x hx => h x (List.mem_cons_of_mem _ hx)
    simp only [startsAnyField, Bool.or_eq_false_iff] at hl
    obtain ⟨⟨⟨h1, h2⟩, h3⟩, h4⟩ := hl
    by_cases h5 : ansTag.isPrefixOf (pyStrip l) = true
    · simp [extractLoop, h1, h2, h3, h4, h5]
    · simp only [Bool.not_eq_true] at h5
      simp [extractLoop, h1, h2, h3, h4, h5, ih hr]

/-- C7: for every reply string in which no stripped line begins with one of
the four recognized field tags, the utils parser returns the all-default
result (both download flags false, filename and summary content absent);
unrecognized lines, including lines beginning the answer marker, are
ignored and no error occurs (the embedding is total). -/
theorem c7_default_safety (r : List Char)
    (h : ∀ l ∈ splitLines r, startsAnyField (pyStrip l) = false) :
    extract_file_operation r = Operations.init := by
  unfold extract_file_operation
  rw [extractLoop_noField _ h]
  rfl

/-- Witness for C7 at a concrete three-line reply with no recognized
field tag. -/
theorem c7_witness :
    (∀ l ∈ splitLines (lstr "hello there\nANSWER: hi\nDOWNLOAD nothing"),
      startsAnyField (pyStrip l) = false) ∧
    extract_file_operation (lstr "hello there\nANSWER: hi\nDOWNLOAD nothing") =
      Operations.init :=
  ⟨by decide, c7_default_safety _ (by decide)⟩

/-- C6: whenever the chain invocation raises, the `/ask` handler replies
with the fixed apology string and still records the failed turn in the
session's memory with that apology as the answer. -/
theorem c6_error_path {E : Type} (question sid : List Char) (mem : MemMap)
    (vs : Option VectorStore) (v : VectorStore)
    (chainResult : Except E (Option (List Char)))
    (fileExists : List Char → Bool) (summaryOk : Bool) (ts : List Char)
    (e : E) (hq : question ≠ []) (hvs : vs = some v)
    (herr : chainResult = Except.error e) :
    ask_question question sid mem vs chainResult fileExists summaryOk ts =
      AskOutcome.simpleResponse
        (lstr "Sorry, an error occurred while processing your request.")
        (add_to_memory mem sid question
          (lstr "Sorry, an error occurred while processing your request.") ts) := by
  subst hvs
  subst herr
  simp [ask_question, hq]

/-- Witness for C6 at a concrete question, session and failing chain. -/
theorem c6_witness :
    lstr "q" ≠ [] ∧
    ask_question (E := Unit) (lstr "q") (lstr "s") memEmpty (some [])
        (Except.error ()) (fun _ => false) false (lstr "t") =
      AskOutcome.simpleResponse
        (lstr "Sorry, an error occurred while processing your request.")
        (add_to_memory memEmpty (lstr "s") (lstr "q")
          (lstr "Sorry, an error occurred while processing your request.")
          (lstr "t")) :=
  ⟨by decide,
   c6_error_path (lstr "q") (lstr "s") memEmpty (some []) [] (Except.error ())
     (fun _ => false) false (lstr "t") () (by decide) rfl rfl⟩

/-- C2 counterexample: the line beginning with a double hash and
whitespace satisfies the subheading heuristic, yet the classifier renders
it as a main heading, not a subheading. -/
theorem c2_counterexample :
    is_subheading (lstr "## Main Findings") = true ∧
    classifyLine (lstr "## Main Findings") = LineKind.mainHead ∧
    LineKind.mainHead ≠ LineKind.subHead ∧
    format_content_for_pdf (lstr "## Main Findings") =
      [Elem.mainHead (lstr "Main Findings")] := by
  decide

/-- C2 amended: every line beginning with a double hash followed by
whitespace satisfies both heading heuristics, and because the main-heading
heuristic (whose markdown pattern accepts any hash run) is checked first,
such a line is always classified and rendered as a main heading; the
subheading heuristic, though satisfied, is never consulted. -/
theorem c2_amended (c : Char) (r : List Char) (hc : isPySpace c = true) :
    is_main_heading ('#' :: '#' :: c :: r) = true ∧
    is_subheading ('#' :: '#' :: c :: r) = true ∧
    classifyLine ('#' :: '#' :: c :: r) = LineKind.mainHead := by
  have hne : ¬ (c = '#') := by
    intro h
    rw [h] at hc
    exact absurd hc (by decide)
  have hmain : is_main_heading ('#' :: '#' :: c :: r) = true := by
    simp [is_main_heading, mainPat1, List.dropWhile, hne, hc]
  have hsub : is_subheading ('#' :: '#' :: c :: r) = true := by
    simp [is_subheading, subPat1, List.dropWhile, hne, hc]
  refine ⟨hmain, hsub, ?_⟩
  simp [classifyLine, hmain]

/-- Witness for C2 at the concrete subheading-styled line. -/
theorem c2_witness :
    isPySpace ' ' = true ∧
    classifyLine ('#' :: '#' :: ' ' :: lstr "Main Findings") = LineKind.mainHead :=
  ⟨by decide, (c2_amended ' ' (lstr "Main Findings") (by decide)).2.2⟩

/-- Helper: the classifier reports a blank line exactly on the empty
stripped line. -/
theorem classifyLine_eq_blank_iff (line : List Char) :
    classifyLine line = LineKind.blank ↔ line = [] := by
  unfold classifyLine
  by_cases h : line = []
  · simp [h]
  · simp only [h, if_false]
    split_ifs <;> simp [h]

/-- C8 counterexample: a blank line does not break a numbered run: after
a numbered line, a blank line and another numbered line, the second
numbered line is rendered with counter value two, not one. -/
theorem c8_counterexample :
    format_content_for_pdf (lstr "1. alpha\n\n7. beta") =
      [Elem.numbered 1 (lstr "alpha"), Elem.spacer,
        Elem.numbered 2 (lstr "beta")] ∧
    Elem.numbered 2 (lstr "beta") ≠ Elem.numbered 1 (lstr "beta") := by
  decide

/-- C8 amended: the numbered-list counter increments by one per numbered
line while the list state is numbered and resets on non-blank non-numbered
lines, but a blank line leaves the list state and counter untouched, so a
numbered run continues across blank lines; the rendered number is the
counter's value (a numbered line after a non-blank non-numbered line is
rendered with number one, since the list state is then not numbered). -/
theorem c8_amended :
    (∀ (story : List Elem) (clt : Option LType) (cnt : Nat) (l : List Char),
      pyStrip l = [] → (lineStep story clt cnt l).2 = (clt, cnt)) ∧
    (∀ (story : List Elem) (clt : Option LType) (cnt : Nat) (l : List Char),
      classifyLine (pyStrip l) = LineKind.numbered →
      lineStep story clt cnt l =
        (story ++ [Elem.numbered ((if clt = some LType.numbered then cnt else 0) + 1)
            (clean_numbered_text (pyStrip l))],
          some LType.numbered,
          (if clt = some LType.numbered then cnt else 0) + 1)) ∧
    (∀ (story : List Elem) (clt : Option LType) (cnt : Nat) (l : List Char),
      pyStrip l ≠ [] → classifyLine (pyStrip l) ≠ LineKind.numbered →
      (lineStep story clt cnt l).2.1 ≠ some LType.numbered) := by
  refine ⟨?_, ?_, ?_⟩
  · intro story clt cnt l h
    simp only [lineStep, h]
    have hb : classifyLine [] = LineKind.blank := by decide
    simp only [hb]
    cases h2 : story.getLast? with
    | none => rfl
    | some e =>
      by_cases h3 : e = Elem.spacer <;> simp [h3]
  · intro story clt cnt l h
    simp [lineStep, h]
  · intro story clt cnt l hne hnum
    cases hcl : classifyLine (pyStrip l) with
    | blank => exact absurd ((classifyLine_eq_blank_iff _).mp hcl) hne
    | numbered => exact absurd hcl hnum
    | mainHead => simp [lineStep, hcl]
    | subHead => simp [lineStep, hcl]
    | bullet => simp [lineStep, hcl]
    | para => simp [lineStep, hcl]

/-- Witness for C8 at concrete lines: a blank line preserves the numbered
state at counter three, and a numbered line entered from a non-numbered
state is rendered with number one. -/
theorem c8_witness :
    pyStrip (lstr " ") = [] ∧
    (lineStep [] (some LType.numbered) 3 (lstr " ")).2 = (some LType.numbered, 3) ∧
    classifyLine (pyStrip (lstr "7. beta")) = LineKind.numbered ∧
    lineStep [] Option.none 0 (lstr "7. beta") =
      ([Elem.numbered 1 (lstr "beta")], some LType.numbered, 1) := by
  refine ⟨by decide, c8_amended.1 [] (some LType.numbered) 3 (lstr " ") (by decide),
    by decide, ?_⟩
  exact (c8_amended.2.1 [] Option.none 0 (lstr "7. beta") (by decide)).trans (by decide)

/-- Helper: a line beginning the summary tag starts with none of the three
field tags checked before it. -/
theorem earlier_tags_false_of_sum {s : List Char}
    (h : sumTag.isPrefixOf s = true) :
    dlOrigTag.isPrefixOf s = false ∧ dlSumTag.isPrefixOf s = false ∧
      fileTag.isPrefixOf s = false := by
  have hS : s.head? = some 'S' := prefix_head_eq h (by decide)
  exact ⟨@tagNotPrefixOf dlOrigTag s 'D' 'S' (by decide) hS (by decide),
    @tagNotPrefixOf dlSumTag s 'D' 'S' (by decide) hS (by decide),
    @tagNotPrefixOf fileTag s 'F' 'S' (by decide) hS (by decide)⟩

/-- C1 counterexample: in summary-accumulation state the utils parser does
not accumulate every subsequent line: on this reply the blank line after
the summary tag is dropped and the recognized field line is consumed as a
field update (setting the download flag), so the accumulated summary is
the newline join of only the plain lines, not of all lines up to the
answer marker. -/
theorem c1_counterexample :
    extract_file_operation c1_input =
      { download_original := true, download_summary := false,
        filename := Option.none, summary_content := some (lstr "a\nb") } ∧
    some (lstr "a\nb") ≠ some (lstr "a\n\nDOWNLOAD_ORIGINAL: true\nb") := by
  decide

/-- C1 amended: once the summary tag has been seen, the utils parser
appends to the summary buffer (joined by newline at the end) exactly the
stripped lines that are non-blank, start with no recognized field tag and
do not begin the answer marker; blank lines are skipped, field-tagged
lines update their field instead of being accumulated, a repeated summary
tag appends its after-colon text when non-empty, and the first line
beginning the answer marker stops the scan immediately, leaving every
field as already computed and the remaining lines unexamined. -/
theorem c1_amended :
    (∀ (a : OpsAcc) (sls : List (List Char)) (l : List Char)
        (rest : List (List Char)),
      pyStrip l ≠ [] → startsAnyField (pyStrip l) = false →
      ansTag.isPrefixOf (pyStrip l) = false →
      extractLoop true a sls (l :: rest) =
        extractLoop true a (sls ++ [pyStrip l]) rest) ∧
    (∀ (a : OpsAcc) (sls : List (List Char)) (l : List Char)
        (rest : List (List Char)),
      pyStrip l = [] →
      extractLoop true a sls (l :: rest) = extractLoop true a sls rest) ∧
    (∀ (a : OpsAcc) (sls : List (List Char)) (l : List Char)
        (rest : List (List Char)),
      ansTag.isPrefixOf (pyStrip l) = true →
      extractLoop true a sls (l :: rest) = finalizeOps a sls) ∧
    (∀ (a : OpsAcc) (sls : List (List Char)) (l : List Char)
        (rest : List (List Char)),
      dlOrigTag.isPrefixOf (pyStrip l) = true →
      extractLoop true a sls (l :: rest) =
        extractLoop true { a with download_original := parseBoolField (pyStrip l) }
          sls rest) ∧
    (∀ (a : OpsAcc) (sls : List (List Char)) (l : List Char)
        (rest : List (List Char)),
      sumTag.isPrefixOf (pyStrip l) = true →
      extractLoop true a sls (l :: rest) =
        extractLoop true a
          (if pyStrip (afterColon (pyStrip l)) = [] then sls
           else sls ++ [pyStrip (afterColon (pyStrip l))]) rest) := by
  refine ⟨?_, ?_, ?_, ?_, ?_⟩
  · intro a sls l rest hne hfield hans
    simp only [startsAnyField, Bool.or_eq_false_iff] at hfield
    obtain ⟨⟨⟨h1, h2⟩, h3⟩, h4⟩ := hfield
    simp [extractLoop, h1, h2, h3, h4, hne, hans]
  · intro a sls l rest h
    simp [extractLoop, h, (by decide : ¬ dlOrigTag = []),
      (by decide : ¬ dlSumTag = []), (by decide : ¬ fileTag = []),
      (by decide : ¬ sumTag = []), (by decide : ¬ ansTag = [])]
  · intro a sls l rest h
    have hfield := noField_of_ans h
    simp only [startsAnyField, Bool.or_eq_false_iff] at hfield
    obtain ⟨⟨⟨h1, h2⟩, h3⟩, h4⟩ := hfield
    simp [extractLoop, h1, h2, h3, h4, h]
  · intro a sls l rest h
    simp [extractLoop, h]
  · intro a sls l rest h
    obtain ⟨h1, h2, h3⟩ := earlier_tags_false_of_sum h
    simp [extractLoop, h1, h2, h3, h]

/-- Witness for C1 at concrete lines in summary state: a plain line is
accumulated, and an answer line stops the scan regardless of the lines
after it. -/
theorem c1_witness :
    pyStrip (lstr "b") ≠ [] ∧ startsAnyField (pyStrip (lstr "b")) = false ∧
    ansTag.isPrefixOf (pyStrip (lstr "b")) = false ∧
    extractLoop true OpsAcc.init [lstr "a"] [lstr "b", lstr "ANSWER: x"] =
      extractLoop true OpsAcc.init [lstr "a", lstr "b"] [lstr "ANSWER: x"] ∧
    extractLoop true OpsAcc.init [lstr "a", lstr "b"]
        [lstr "ANSWER: x", lstr "DOWNLOAD_ORIGINAL: true"] =
      finalizeOps OpsAcc.init [lstr "a", lstr "b"] :=
  ⟨by decide, by decide, by decide,
   c1_amended.1 OpsAcc.init [lstr "a"] (lstr "b") [lstr "ANSWER: x"]
     (by decide) (by decide) (by decide),
   c1_amended.2.2.1 OpsAcc.init [lstr "a", lstr "b"] (lstr "ANSWER: x")
     [lstr "DOWNLOAD_ORIGINAL: true"] (by decide)⟩

/-- C10 counterexample: the two parser implementations disagree on a
two-line summary reply (newline join with stripped-empty handling versus
space join). -/
theorem c10_counterexample :
    extract_file_operation c10_input ≠ extractFileOperationApp c10_input := by
  decide

/-- Helper: on replies with no answer-marker line the two parser loops
keep their three scalar fields in lockstep, given that the section states
are related and the carried fields agree. -/
theorem extractLoops_agree (lines : List (List Char))
    (h : ∀ l ∈ lines, ansTag.isPrefixOf (pyStrip l) = false) :
    ∀ (inSum : Bool) (sec : CurSec) (a : OpsAcc) (sls : List (List Char))
      (ops : Operations),
      (sec = CurSec.summary ↔ inSum = true) →
      ops.download_original = a.download_original →
      ops.download_summary = a.download_summary →
      ops.filename = a.filename →
      ((extractLoop inSum a sls lines).download_original =
          (extractLoopApp sec ops lines).download_original ∧
        (extractLoop inSum a sls lines).download_summary =
          (extractLoopApp sec ops lines).download_summary ∧
        (extractLoop inSum a sls lines).filename =
          (extractLoopApp sec ops lines).filename) := by
  induction lines with
  | nil =>
    intro inSum sec a sls ops hrel hdo hds hfn
    simp [extractLoop, extractLoopApp, finalizeOps, hdo, hds, hfn]
  | cons l rest ih =>
    intro inSum sec a sls ops hrel hdo hds hfn
    have hl := h l (List.mem_cons_self _ _)
    have hr : ∀ x ∈ rest, ansTag.isPrefixOf (pyStrip x) = false :=
      fun x hx => h x (List.mem_cons_of_mem _ hx)
    by_cases h1 : dlOrigTag.isPrefixOf (pyStrip l) = true
    · simp only [extractLoop, extractLoopApp, h1, if_true]
      exact ih hr inSum sec _ sls _ hrel (by simp [hdo]) (by simp [hds]) (by simp [hfn])
    · by_cases h2 : dlSumTag.isPrefixOf (pyStrip l) = true
      · simp only [extractLoop, extractLoopApp, h1, h2, if_true, if_false]
        exact ih hr inSum sec _ sls _ hrel (by simp [hdo]) (by simp [hds]) (by simp [hfn])
      · by_cases h3 : fileTag.isPrefixOf (pyStrip l) = true
        · simp only [extractLoop, extractLoopApp, h1, h2, h3, if_true, if_false]
          exact ih hr inSum sec _ sls _ hrel (by simp [hdo]) (by simp [hds]) (by simp [hfn])
        · by_cases h4 : sumTag.isPrefixOf (pyStrip l) = true
          · simp only [extractLoop, extractLoopApp, h1, h2, h3, h4, if_true, if_false]
            exact ih hr true CurSec.summary _ _ _ (by simp) (by simp [hdo])
              (by simp [hds]) (by simp [hfn])
          · by_cases h5 : inSum = true ∧ pyStrip l ≠ []
            · have hsec : sec = CurSec.summary := hrel.mpr h5.1
              simp [extractLoop, extractLoopApp, h1, h2, h3, h4, h5.1, h5.2,
                hsec, hl]
              exact ih hr true CurSec.summary _ _ _ (by simp) (by simp [hdo])
                (by simp [hds]) (by simp [hfn])
            · have hap : ¬ (sec = CurSec.summary ∧ pyStrip l ≠ []) := by
                intro hc
                exact h5 ⟨hrel.mp hc.1, hc.2⟩
              simp [extractLoop, extractLoopApp, h1, h2, h3, h4, h5, hap, hl]
              exact ih hr inSum sec a sls ops hrel hdo hds hfn

/-- C10 amended: on every reply in which no stripped line begins the
answer marker, the two implementations agree on the download flags and
the filename; they differ in general, both in summary-content handling
(newline join with blank-line skipping and absent-when-empty in utils
versus space join and possibly-empty string in app) and after an answer
line (the utils loop stops while the app loop keeps processing field
lines). -/
theorem c10_amended (r : List Char)
    (h : ∀ l ∈ splitLines r, ansTag.isPrefixOf (pyStrip l) = false) :
    (extract_file_operation r).download_original =
        (extractFileOperationApp r).download_original ∧
    (extract_file_operation r).download_summary =
        (extractFileOperationApp r).download_summary ∧
    (extract_file_operation r).filename = (extractFileOperationApp r).filename := by
  unfold extract_file_operation extractFileOperationApp
  exact extractLoops_agree _ h false CurSec.none OpsAcc.init [] Operations.init
    (by decide) rfl rfl rfl

/-- Witness for C10 on a concrete answerless reply containing all four
field tags. -/
theorem c10_witness :
    (∀ l ∈ splitLines (lstr "DOWNLOAD_ORIGINAL: true\nFILENAME: a.pdf\nSUMMARY_CONTENT: s\nmore"),
      ansTag.isPrefixOf (pyStrip l) = false) ∧
    ((extract_file_operation (lstr "DOWNLOAD_ORIGINAL: true\nFILENAME: a.pdf\nSUMMARY_CONTENT: s\nmore")).download_original =
        (extractFileOperationApp (lstr "DOWNLOAD_ORIGINAL: true\nFILENAME: a.pdf\nSUMMARY_CONTENT: s\nmore")).download_original ∧
      (extract_file_operation (lstr "DOWNLOAD_ORIGINAL: true\nFILENAME: a.pdf\nSUMMARY_CONTENT: s\nmore")).download_summary =
        (extractFileOperationApp (lstr "DOWNLOAD_ORIGINAL: true\nFILENAME: a.pdf\nSUMMARY_CONTENT: s\nmore")).download_summary ∧
      (extract_file_operation (lstr "DOWNLOAD_ORIGINAL: true\nFILENAME: a.pdf\nSUMMARY_CONTENT: s\nmore")).filename =
        (extractFileOperationApp (lstr "DOWNLOAD_ORIGINAL: true\nFILENAME: a.pdf\nSUMMARY_CONTENT: s\nmore")).filename) :=
  ⟨by decide, c10_amended _ (by decide)⟩

/-- Helper: the Except monad bind on a success value reduces to the
continuation. -/
theorem except_bind_ok {E A B : Type} (a : A) (f : A → Except E B) :
    (do let x ← (Except.ok a : Except E A); f x) = f a := rfl

/-- Helper: the Except monad bind on an error propagates the error. -/
theorem except_bind_error {E A B : Type} (e : E) (f : A → Except E B) :
    (do let x ← (Except.error e : Except E A); f x) = Except.error e := rfl

/-- Helper: when every loader call succeeds, the loading loop succeeds
with the concatenation of the tagged units, and that concatenation is
empty exactly when every file loaded to an empty unit list. -/
theorem loadAll_char {E : Type} (load : FileInfo → Except E (List Doc)) :
    ∀ files : List FileInfo, (∀ f ∈ files, ∃ ds, load f = Except.ok ds) →
      ∃ ds, loadAll load files = Except.ok ds ∧
        (ds = [] ↔ ∀ f ∈ files, load f = Except.ok []) := by
  intro files
  induction files with
  | nil => intro _; exact ⟨[], rfl, by simp⟩
  | cons f rest ih =>
    intro h
    obtain ⟨d, hd⟩ := h f (List.mem_cons_self _ _)
    obtain ⟨ds, hds, hiff⟩ := ih fun x hx => h x (List.mem_cons_of_mem _ hx)
    refine ⟨d.map (tagDoc f) ++ ds, ?_, ?_⟩
    · simp [loadAll, hd, hds, except_bind_ok]
    · constructor
      · intro hnil
        rw [List.append_eq_nil] at hnil
        have hd0 : d = [] := List.map_eq_nil_iff.mp hnil.1
        intro x hx
        rcases List.mem_cons.mp hx with hx | hx
        · rw [hx, hd, hd0]
        · exact (hiff.mp hnil.2) x hx
      · intro hall
        have h1 : load f = Except.ok [] := hall f (List.mem_cons_self _ _)
        rw [hd] at h1
        have hd0 : d = [] := by
          injection h1 with h1
        have h2 : ds = [] := hiff.mpr fun x hx => hall x (List.mem_cons_of_mem _ hx)
        simp [hd0, h2]

/-- C3: for a handler with no cached store, the ensure-ready operation
reports failure exactly when the upload folder is empty or every document
loads to zero extracted units, and `initialize` reports `false` under the
same condition; both failure cases are reported identically (a `None`
store and an unchanged handler). -/
theorem c3_ready_iff {E : Type} (st : RAGState) (files : List FileInfo)
    (load : FileInfo → Except E (List Doc)) (split : List Doc → List Doc)
    (hfresh : st.vectorstore = Option.none)
    (hok : ∀ f ∈ files, ∃ ds, load f = Except.ok ds) :
    (st.get_vectorstore files load split = Except.ok (st, Option.none) ↔
      files = [] ∨ ∀ f ∈ files, load f = Except.ok []) ∧
    (st.initializeHandler files load split = Except.ok (st, false) ↔
      files = [] ∨ ∀ f ∈ files, load f = Except.ok []) := by
  by_cases hfiles : files = []
  · subst hfiles
    constructor
    · simp [RAGState.get_vectorstore, hfresh]
    · simp [RAGState.initializeHandler, RAGState.get_vectorstore, hfresh, except_bind_ok]
  · obtain ⟨ds, hds, hiff⟩ := loadAll_char load files hok
    by_cases hnil : ds = []
    · have hacc : st.get_vectorstore files load split =
          Except.ok (st, Option.none) := by
        simp [RAGState.get_vectorstore, hfresh, hfiles, hds, hnil, except_bind_ok]
      have hrhs : files = [] ∨ ∀ f ∈ files, load f = Except.ok [] :=
        Or.inr (hiff.mp hnil)
      have hinit : st.initializeHandler files load split = Except.ok (st, false) := by
        simp [RAGState.initializeHandler, hacc, except_bind_ok]
      exact ⟨⟨fun _ => hrhs, fun _ => hacc⟩, ⟨fun _ => hrhs, fun _ => hinit⟩⟩
    · have hacc : st.get_vectorstore files load split =
          Except.ok ({ st with vectorstore := some (split ds) }, some (split ds)) := by
        simp [RAGState.get_vectorstore, hfresh, hfiles, hds, hnil, except_bind_ok]
      have hrhs : ¬ (files = [] ∨ ∀ f ∈ files, load f = Except.ok []) := by
        rintro (hc | hc)
        · exact hfiles hc
        · exact hnil (hiff.mpr hc)
      have hinit : st.initializeHandler files load split =
          Except.ok (RAGState.create_rag_chain
            { st with vectorstore := some (split ds) }, true) := by
        simp [RAGState.initializeHandler, hacc, except_bind_ok]
      constructor
      · rw [hacc]
        simp [hrhs]
      · rw [hinit]
        simp [hrhs]

/-- Witness for C3 at a fresh handler with one loadable document. -/
theorem c3_witness :
    RAGState.init.vectorstore = Option.none ∧
    ((RAGState.init.get_vectorstore [c5_goodFile] c3_load id =
      Except.ok (RAGState.init, Option.none)) ↔
      ([c5_goodFile] = [] ∨ ∀ f ∈ [c5_goodFile], c3_load f = Except.ok [])) :=
  ⟨rfl,
   (c3_ready_iff RAGState.init [c5_goodFile] c3_load id rfl
     (fun _ _ => ⟨_, rfl⟩)).1⟩

/-- C5 counterexample: with a fresh handler, a failing first document and
a loadable second document, the build aborts with the loader error; the
second document is never indexed, contradicting skip-and-continue. -/
theorem c5_counterexample :
    c5_load c5_goodFile = Except.ok [{ content := lstr "text", meta := [] }] ∧
    RAGState.init.get_vectorstore [c5_badFile, c5_goodFile] c5_load id =
      Except.error () := by
  decide

/-- Helper: the loading loop propagates the first loader error. -/
theorem loadAll_error {E : Type} (load : FileInfo → Except E (List Doc))
    (f : FileInfo) (e : E) (hf : load f = Except.error e) :
    ∀ (pre post : List FileInfo), (∀ g ∈ pre, ∃ ds, load g = Except.ok ds) →
      loadAll load (pre ++ f :: post) = Except.error e := by
  intro pre
  induction pre with
  | nil => intro post _; simp [loadAll, hf, except_bind_error]
  | cons g rest ih =>
    intro post h
    obtain ⟨d, hd⟩ := h g (List.mem_cons_self _ _)
    simp [loadAll, hd, except_bind_ok, except_bind_error,
      ih post fun x hx => h x (List.mem_cons_of_mem _ hx)]

/-- C5 amended: if any stored document's loader call raises (all documents
before it loading fine), the fresh-handler build operation aborts with
that error instead of skipping the document; no remaining document is
indexed. -/
theorem c5_abort {E : Type} (st : RAGState) (files pre post : List FileInfo)
    (f : FileInfo) (e : E) (load : FileInfo → Except E (List Doc))
    (split : List Doc → List Doc)
    (hfresh : st.vectorstore = Option.none) (hsplit : files = pre ++ f :: post)
    (hpre : ∀ g ∈ pre, ∃ ds, load g = Except.ok ds)
    (hf : load f = Except.error e) :
    st.get_vectorstore files load split = Except.error e := by
  subst hsplit
  have hne : ¬ (pre ++ f :: post = []) := by simp
  simp [RAGState.get_vectorstore, hfresh, hne, except_bind_error,
    loadAll_error load f e hf pre post hpre]

/-- Witness for C5 at the concrete two-document store. -/
theorem c5_witness :
    RAGState.init.vectorstore = Option.none ∧
    [c5_badFile, c5_goodFile] = [] ++ c5_badFile :: [c5_goodFile] ∧
    c5_load c5_badFile = Except.error () ∧
    RAGState.init.get_vectorstore [c5_badFile, c5_goodFile] c5_load id =
      Except.error () :=
  ⟨rfl, rfl, by decide,
   c5_abort RAGState.init [c5_badFile, c5_goodFile] [] [c5_goodFile] c5_badFile
     () c5_load id rfl rfl (by intro g hg; simp at hg) (by decide)⟩

/-- Helper: the bounded deque append is the append-then-keep-the-last-cap
operation on lists that are within the capacity. -/
theorem dequeAppend_eq (xs : List Turn) (x : Turn)
    (h : xs.length ≤ Config.MAX_MEMORY_SIZE) :
    dequeAppend Config.MAX_MEMORY_SIZE xs x =
      (xs ++ [x]).drop (xs.length + 1 - Config.MAX_MEMORY_SIZE) := by
  unfold dequeAppend
  by_cases hlt : xs.length < Config.MAX_MEMORY_SIZE
  · rw [if_pos hlt]
    have h0 : xs.length + 1 - Config.MAX_MEMORY_SIZE = 0 := by omega
    rw [h0, List.drop_zero]
  · rw [if_neg hlt]
    have hC : 0 < Config.MAX_MEMORY_SIZE := by decide
    have harith : xs.length - Config.MAX_MEMORY_SIZE + 1 =
        xs.length + 1 - Config.MAX_MEMORY_SIZE := by omega
    rw [harith, List.drop_append_of_le_length (by omega)]

/-- Helper: folding bounded-deque appends keeps exactly the last capacity
elements of the concatenation. -/
theorem foldDeque (items : List Turn) :
    ∀ cur : List Turn, cur.length ≤ Config.MAX_MEMORY_SIZE →
      items.foldl (dequeAppend Config.MAX_MEMORY_SIZE) cur =
        (cur ++ items).drop (cur.length + items.length - Config.MAX_MEMORY_SIZE) := by
  induction items with
  | nil =>
    intro cur h
    simp only [List.foldl_nil, List.append_nil, List.length_nil, Nat.add_zero]
    have h0 : cur.length - Config.MAX_MEMORY_SIZE = 0 := by omega
    rw [h0, List.drop_zero]
  | cons x rest ih =>
    intro cur h
    rw [List.foldl_cons]
    have hlen : (dequeAppend Config.MAX_MEMORY_SIZE cur x).length ≤
        Config.MAX_MEMORY_SIZE := by
      rw [dequeAppend_eq cur x h, List.length_drop, List.length_append,
        List.length_singleton]
      omega
    rw [ih _ hlen, dequeAppend_eq cur x h, List.length_drop, List.length_append,
      ← List.drop_append_of_le_length
        (by rw [List.length_append, List.length_singleton]; omega)]
    rw [List.drop_drop, List.append_assoc, List.singleton_append]
    congr 1
    rw [List.length_singleton, List.length_cons]
    omega

/-- Helper: looking up the stored key yields the stored value. -/
theorem memLookup_store_self (m : MemMap) (sid : List Char) (v : List Turn) :
    memLookup (memStore m sid v) sid = some v := by
  induction m with
  | nil => simp [memStore, memLookup]
  | cons p t ih =>
    obtain ⟨k, w⟩ := p
    by_cases h : k = sid
    · simp [memStore, memLookup, h]
    · simp [memStore, memLookup, h, ih]

/-- Helper: storing under one key leaves other keys' lookups unchanged. -/
theorem memLookup_store_other (m : MemMap) (sid sid' : List Char) (v : List Turn)
    (h : sid' ≠ sid) :
    memLookup (memStore m sid v) sid' = memLookup m sid' := by
  induction m with
  | nil => simp [memStore, memLookup, Ne.symm h]
  | cons p t ih =>
    obtain ⟨k, w⟩ := p
    by_cases hk : k = sid
    · subst hk
      simp [memStore, memLookup, Ne.symm h]
    · simp [memStore, memLookup, hk, ih]

/-- Helper: appending a turn acts as the bounded deque append on the
session's retained list. -/
theorem memTurns_add (m : MemMap) (sid u a ts : List Char) :
    memTurns (add_to_memory m sid u a ts) sid =
      dequeAppend Config.MAX_MEMORY_SIZE (memTurns m sid)
        { user := u, ai := a, timestamp := ts } := by
  simp [add_to_memory, memTurns, memLookup_store_self]

/-- Helper: the per-session retained list after a pure append sequence is
the deque fold over the appended turns. -/
theorem buildAux (sid : List Char) (items : List Turn) :
    ∀ m : MemMap,
      memTurns (items.foldl
        (fun mm t => add_to_memory mm sid t.user t.ai t.timestamp) m) sid =
      items.foldl (dequeAppend Config.MAX_MEMORY_SIZE) (memTurns m sid) := by
  induction items with
  | nil => intro m; rfl
  | cons t rest ih =>
    intro m
    rw [List.foldl_cons, List.foldl_cons, ih, memTurns_add]

/-- Helper: after appending a sequence of turns to one session from an
empty store, exactly the most recent capacity-many turns remain, in
order. -/
theorem memTurns_buildMem (sid : List Char) (items : List Turn) :
    memTurns (buildMem sid items) sid =
      items.drop (items.length - Config.MAX_MEMORY_SIZE) := by
  unfold buildMem
  rw [buildAux]
  have h0 : memTurns memEmpty sid = [] := rfl
  rw [h0, foldDeque items [] (by simp)]
  simp

/-- Helper: a session never appended to is absent from the store built by
appending to another session. -/
theorem buildMem_other (sid other : List Char) (items : List Turn)
    (h : other ≠ sid) :
    memLookup (buildMem sid items) other = Option.none := by
  unfold buildMem
  have hgen : ∀ (its : List Turn) (m : MemMap),
      memLookup m other = Option.none →
      memLookup (its.foldl
        (fun mm t => add_to_memory mm sid t.user t.ai t.timestamp) m) other =
        Option.none := by
    intro its
    induction its with
    | nil => intro m hm; exact hm
    | cons t rest ih =>
      intro m hm
      rw [List.foldl_cons]
      refine ih _ ?_
      rw [add_to_memory, memLookup_store_other _ _ _ _ h, hm]
  exact hgen items memEmpty rfl

/-- C4: the conversation memory retains at most the capacity (twenty) of
turns per session; appending a sequence of turns to one session leaves
exactly the most recent capacity-many, oldest first (so after twenty-five
appends the last twenty remain); and the conversation context of a session
never appended to is exactly the empty string. -/
theorem c4_memory_bound :
    (∀ (sid : List Char) (items : List Turn),
      memTurns (buildMem sid items) sid =
        items.drop (items.length - Config.MAX_MEMORY_SIZE)) ∧
    (∀ (sid : List Char) (items : List Turn),
      (memTurns (buildMem sid items) sid).length ≤ Config.MAX_MEMORY_SIZE) ∧
    (∀ (sid other : List Char) (items : List Turn), other ≠ sid →
      get_conversation_context (buildMem sid items) other = []) := by
  refine ⟨memTurns_buildMem, ?_, ?_⟩
  · intro sid items
    rw [memTurns_buildMem, List.length_drop]
    omega
  · intro sid other items h
    unfold get_conversation_context
    rw [buildMem_other sid other items h]

/-- Witness for C4: twenty-five turns appended to one session leave the
last twenty, and the untouched session's context is empty. -/
theorem c4_witness :
    memTurns (buildMem (lstr "a") c4items) (lstr "a") =
      c4items.drop (c4items.length - Config.MAX_MEMORY_SIZE) ∧
    lstr "b" ≠ lstr "a" ∧
    get_conversation_context (buildMem (lstr "a") c4items) (lstr "b") = [] ∧
    memTurns (buildMem (lstr "a") c4items) (lstr "a") = c4items.drop 5 :=
  ⟨c4_memory_bound.1 (lstr "a") c4items, by decide,
   c4_memory_bound.2.2 (lstr "a") (lstr "b") c4items (by decide),
   (c4_memory_bound.1 (lstr "a") c4items).trans (by decide)⟩

/-- Helper: a substitution whose pattern opens with a character absent
from the text never fires, at any fuel. -/
theorem subLazyAux_headFree (lb la : Option Char → Bool) (c0 : Char)
    (p cl rl rr : List Char) :
    ∀ (fuel : Nat) (prev : Option Char) (s : List Char), c0 ∉ s →
      subLazyAux lb la (c0 :: p) cl rl rr fuel prev s = s := by
  intro fuel
  induction fuel with
  | zero => intro prev s _; rfl
  | succ n ih =>
    intro prev s h
    cases s with
    | nil => rfl
    | cons c t =>
      have hc : ¬ (c0 = c) := fun hc0 => h (hc0 ▸ List.mem_cons_self c t)
      have hop : (c0 :: p).isPrefixOf (c :: t) = false := by
        simp [List.isPrefixOf, hc]
      have ht : c0 ∉ t := fun hm => h (List.mem_cons_of_mem _ hm)
      simp [subLazyAux, hop, ih (some c) t ht]

/-- Helper: the double-underscore bold substitution never fires on text
whose underscores are all word-internal (a double underscore would need an
underscore followed by an underscore). -/
theorem subLazyAux_uu (lb la : Option Char → Bool) (cl rl rr : List Char) :
    ∀ (fuel : Nat) (prev prev2 : Option Char) (s : List Char),
      uInternal prev2 s = true →
      subLazyAux lb la (lstr "__") cl rl rr fuel prev s = s := by
  intro fuel
  induction fuel with
  | zero => intro prev prev2 s _; rfl
  | succ n ih =>
    intro prev prev2 s h
    cases s with
    | nil => rfl
    | cons c t =>
      simp only [uInternal, Bool.and_eq_true] at h
      obtain ⟨hguard, hrec⟩ := h
      have hop : (lstr "__").isPrefixOf (c :: t) = false := by
        by_cases hc : c = '_'
        · rw [if_pos hc, Bool.and_eq_true] at hguard
          obtain ⟨_, hB⟩ := hguard
          cases t with
          | nil => simp at hB
          | cons m u =>
            simp only [List.head?_cons, Bool.and_eq_true] at hB
            have hm : ¬ ('_' = m) := by
              intro he
              rw [← he] at hB
              simp at hB
            simp [lstr, List.isPrefixOf, hc, hm]
        · have hcc : ¬ ('_' = c) := fun he => hc he.symm
          simp [lstr, List.isPrefixOf, hcc]
      simp [subLazyAux, hop, ih (some c) (some c) t hrec]

/-- Helper: the word-boundary-guarded underscore italic substitution never
fires on text whose underscores are all word-internal: at every underscore
the preceding character is a word character, so the lookbehind rejects the
match.  The lookbehind argument tracks the checker's previous character. -/
theorem subLazyAux_underscore (cl rl rr : List Char) :
    ∀ (fuel : Nat) (prev : Option Char) (s : List Char),
      uInternal prev s = true →
      subLazyAux noWordCtx noWordCtx (lstr "_") cl rl rr fuel prev s = s := by
  intro fuel
  induction fuel with
  | zero => intro prev s _; rfl
  | succ n ih =>
    intro prev s h
    cases s with
    | nil => rfl
    | cons c t =>
      simp only [uInternal, Bool.and_eq_true] at h
      obtain ⟨hguard, hrec⟩ := h
      by_cases hc : c = '_'
      · rw [if_pos hc, Bool.and_eq_true] at hguard
        obtain ⟨hA, _⟩ := hguard
        cases hp : prev with
        | none => rw [hp] at hA; simp at hA
        | some q =>
          rw [hp] at hA
          simp only [Bool.and_eq_true] at hA
          have hlb : noWordCtx (some q) = false := by
            simp [noWordCtx, hA.1]
          simp [subLazyAux, hlb, ih (some c) t hrec]
      · have hop : (lstr "_").isPrefixOf (c :: t) = false := by
          have hcc : ¬ ('_' = c) := fun he => hc he.symm
          simp [lstr, List.isPrefixOf, hcc]
        simp [subLazyAux, hop, ih (some c) t hrec]

/-- Helper: star-free text passes the double-asterisk substitution
unchanged. -/
theorem pySub_star2 (s : List Char) (h : '*' ∉ s) :
    pySubLazy anyCtx anyCtx (lstr "**") (lstr "**")
      (lstr "<b>") (lstr "</b>") s = s :=
  subLazyAux_headFree anyCtx anyCtx '*' (lstr "*") (lstr "**")
    (lstr "<b>") (lstr "</b>") s.length Option.none s h

/-- Helper: star-free text passes the asterisk substitution unchanged. -/
theorem pySub_star1 (s : List Char) (h : '*' ∉ s) :
    pySubLazy anyCtx anyCtx (lstr "*") (lstr "*")
      (lstr "<i>") (lstr "</i>") s = s :=
  subLazyAux_headFree anyCtx anyCtx '*' [] (lstr "*")
    (lstr "<i>") (lstr "</i>") s.length Option.none s h

/-- Helper: word-internal-underscore text passes the double-underscore
substitution unchanged. -/
theorem pySub_uu (s : List Char) (h : uInternal Option.none s = true) :
    pySubLazy anyCtx anyCtx (lstr "__") (lstr "__")
      (lstr "<b>") (lstr "</b>") s = s :=
  subLazyAux_uu anyCtx anyCtx (lstr "__") (lstr "<b>") (lstr "</b>")
    s.length Option.none Option.none s h

/-- Helper: word-internal-underscore text passes the guarded underscore
italic substitution unchanged. -/
theorem pySub_underscore (s : List Char) (h : uInternal Option.none s = true) :
    pySubLazy noWordCtx noWordCtx (lstr "_") (lstr "_")
      (lstr "<i>") (lstr "</i>") s = s :=
  subLazyAux_underscore (lstr "_") (lstr "<i>") (lstr "</i>")
    s.length Option.none s h

/-- C9: on a star-free body-paragraph line in which every underscore is
word-internal (immediately preceded and followed by a word character other
than an underscore, as inside a filename such as `my_file_name.pdf`), the
inline formatter performs no conversion and returns the line unchanged:
the underscore italic form fires only when its delimiting underscores sit
at word boundaries. -/
theorem c9_underscore_word_boundary (s : List Char) (h1 : '*' ∉ s)
    (h2 : uInternal Option.none s = true) : format_inline_text s = s := by
  simp only [format_inline_text]
  rw [pySub_star2 s h1, pySub_star1 s h1, pySub_uu s h2, pySub_underscore s h2]

/-- Witness for C9 at the filename from the specification. -/
theorem c9_witness :
    '*' ∉ lstr "my_file_name.pdf" ∧
    uInternal Option.none (lstr "my_file_name.pdf") = true ∧
    format_inline_text (lstr "my_file_name.pdf") = lstr "my_file_name.pdf" :=
  ⟨by decide, by decide,
   c9_underscore_word_boundary (lstr "my_file_name.pdf") (by decide) (by decide)⟩
